import Mathlib

/-!
# Verification of the Fuel SRC-20 token indexer core

Shallow embedding of the repository's original logic:

* `getAssetId` — the Identity Deriver (`src/unnamed/part_000` lines 16–21):
  `'0x' + sha256(Buffer.from(contractId.slice(2) + subId.slice(2), 'hex')).hex`.
  SHA-256 is implemented from FIPS 180-4 over byte lists (embedding Node's
  `crypto.createHash('sha256')`), and `bufferFromHex` embeds Node's
  `Buffer.from(·, 'hex')` semantics: decoding proceeds pairwise and stops
  at the first pair containing a non-hexadecimal character; a trailing
  lone digit is dropped; no error is ever raised.
* the batch handler (`run(dataSource, database, async ctx => ...)`,
  lines 93–146): per-receipt classification, the `getAsset`
  fetch-or-create cache, the MINT and LOG_DATA branches, and the final
  bulk `ctx.store.upsert`.

Machine words are `Nat` with explicit reduction `% 2 ^ 32`.
-/

namespace TokenIndexer

/-! ## SHA-256 over byte lists (FIPS 180-4) -/

/-- Rotate right on 32-bit words; inputs are already reduced modulo `2 ^ 32`. -/
def rotr32 (n x : Nat) : Nat := ((x >>> n) ||| (x <<< (32 - n))) % 2 ^ 32

/-- Bitwise complement on a 32-bit word. -/
def not32 (x : Nat) : Nat := x ^^^ (2 ^ 32 - 1)

def ch32 (x y z : Nat) : Nat := (x &&& y) ^^^ (not32 x &&& z)

def maj32 (x y z : Nat) : Nat := (x &&& y) ^^^ (x &&& z) ^^^ (y &&& z)

def bigSigma0 (x : Nat) : Nat := rotr32 2 x ^^^ rotr32 13 x ^^^ rotr32 22 x

def bigSigma1 (x : Nat) : Nat := rotr32 6 x ^^^ rotr32 11 x ^^^ rotr32 25 x

def smallSigma0 (x : Nat) : Nat := rotr32 7 x ^^^ rotr32 18 x ^^^ ((x >>> 3) % 2 ^ 32)

def smallSigma1 (x : Nat) : Nat := rotr32 17 x ^^^ rotr32 19 x ^^^ ((x >>> 10) % 2 ^ 32)

/-- The SHA-256 round constants (FIPS 180-4 §4.2.2), written in decimal. -/
def sha256K : List Nat :=
  [1116352408, 1899447441, 3049323471, 3921009573, 961987163, 1508970993,
   2453635748, 2870763221, 3624381080, 310598401, 607225278, 1426881987,
   1925078388, 2162078206, 2614888103, 3248222580, 3835390401, 4022224774,
   264347078, 604807628, 770255983, 1249150122, 1555081692, 1996064986,
   2554220882, 2821834349, 2952996808, 3210313671, 3336571891, 3584528711,
   113926993, 338241895, 666307205, 773529912, 1294757372, 1396182291,
   1695183700, 1986661051, 2177026350, 2456956037, 2730485921, 2820302411,
   3259730800, 3345764771, 3516065817, 3600352804, 4094571909, 275423344,
   430227734, 506948616, 659060556, 883997877, 958139571, 1322822218,
   1537002063, 1747873779, 1955562222, 2024104815, 2227730452, 2361852424,
   2428436474, 2756734187, 3204031479, 3329325298]

/-- The eight working variables / hash state of SHA-256. -/
structure Digest where
  a : Nat
  b : Nat
  c : Nat
  d : Nat
  e : Nat
  f : Nat
  g : Nat
  h : Nat
deriving Repr, DecidableEq

/-- Initial hash value (FIPS 180-4 §5.3.3), written in decimal. -/
def sha256H0 : Digest :=
  ⟨1779033703, 3144134277, 1013904242, 2773480762,
   1359893119, 2600822924, 528734635, 1541459225⟩

/-- One SHA-256 round: `kw` is the pair of round constant and schedule word. -/
def sha256Round (st : Digest) (kw : Nat × Nat) : Digest :=
  let t1 := (st.h + bigSigma1 st.e + ch32 st.e st.f st.g + kw.1 + kw.2) % 2 ^ 32
  let t2 := (bigSigma0 st.a + maj32 st.a st.b st.c) % 2 ^ 32
  ⟨(t1 + t2) % 2 ^ 32, st.a, st.b, st.c, (st.d + t1) % 2 ^ 32, st.e, st.f, st.g⟩

/-- Extend a 16-word block to the 64-word message schedule; `k` words remain to add. -/
def extendSchedule : Nat → List Nat → List Nat
  | 0, ws => ws
  | k + 1, ws =>
    let n := ws.length
    let w := (smallSigma1 (ws.getD (n - 2) 0) + ws.getD (n - 7) 0 +
              smallSigma0 (ws.getD (n - 15) 0) + ws.getD (n - 16) 0) % 2 ^ 32
    extendSchedule k (ws ++ [w])

/-- Process one 16-word block. -/
def sha256Block (st : Digest) (block : List Nat) : Digest :=
  let ws := extendSchedule 48 block
  let t := (sha256K.zip ws).foldl sha256Round st
  ⟨(st.a + t.a) % 2 ^ 32, (st.b + t.b) % 2 ^ 32, (st.c + t.c) % 2 ^ 32, (st.d + t.d) % 2 ^ 32,
   (st.e + t.e) % 2 ^ 32, (st.f + t.f) % 2 ^ 32, (st.g + t.g) % 2 ^ 32, (st.h + t.h) % 2 ^ 32⟩

/-- Split a byte list into big-endian 32-bit words (list length a multiple of 4). -/
def bytesToWords : List Nat → List Nat
  | b0 :: b1 :: b2 :: b3 :: rest =>
    (((b0 * 256 + b1) * 256 + b2) * 256 + b3) :: bytesToWords rest
  | _ => []

/-- Split a word list into 16-word blocks; structural recursion on a fuel
bound (any fuel at least the list length gives the full chunking). -/
def chunk16Go : Nat → List Nat → List (List Nat)
  | 0, _ => []
  | _, [] => []
  | fuel + 1, w :: ws => (w :: ws).take 16 :: chunk16Go fuel (ws.drop 15)

/-- Split a word list into 16-word blocks. -/
def chunk16 (ws : List Nat) : List (List Nat) := chunk16Go ws.length ws

/-- SHA-256 message padding: append `0x80`, zeros to 56 mod 64, and the
64-bit big-endian bit length. -/
def sha256Pad (msg : List Nat) : List Nat :=
  let n := msg.length
  let zeros := (120 - (n + 1) % 64) % 64
  let bitLen := 8 * n
  msg ++ [0x80] ++ List.replicate zeros 0 ++
    [(bitLen >>> 56) % 256, (bitLen >>> 48) % 256, (bitLen >>> 40) % 256, (bitLen >>> 32) % 256,
     (bitLen >>> 24) % 256, (bitLen >>> 16) % 256, (bitLen >>> 8) % 256, bitLen % 256]

/-- Big-endian bytes of a 32-bit word. -/
def wordBytes (w : Nat) : List Nat :=
  [(w >>> 24) % 256, (w >>> 16) % 256, (w >>> 8) % 256, w % 256]

/-- SHA-256 of a byte list, as the 32-byte digest. -/
def sha256 (msg : List Nat) : List Nat :=
  let d := (chunk16 (bytesToWords (sha256Pad msg))).foldl sha256Block sha256H0
  wordBytes d.a ++ wordBytes d.b ++ wordBytes d.c ++ wordBytes d.d ++
  wordBytes d.e ++ wordBytes d.f ++ wordBytes d.g ++ wordBytes d.h

/-! ## Hex encoding and decoding -/

/-- The alphabet of lowercase hexadecimal digits, `0`–`9` then `a`–`f`. -/
def hexDigitsLower : List Char :=
  (List.range 16).map fun n => Char.ofNat (if n < 10 then n + 48 else n + 87)

/-- Lowercase hexadecimal digit for a nibble. -/
def nibbleChar (n : Nat) : Char :=
  hexDigitsLower.getD n '0'

/-- Lowercase hexadecimal encoding of a byte list (Node's `digest('hex')`). -/
def bytesToHex (bs : List Nat) : String :=
  String.mk (bs.flatMap fun b => [nibbleChar (b / 16), nibbleChar (b % 16)])

/-- Numeric value of a hexadecimal character, accepting both cases (the
character ranges Node's hex decoder recognizes). -/
def hexVal (c : Char) : Option Nat :=
  if '0' ≤ c ∧ c ≤ '9' then some (c.toNat - '0'.toNat)
  else if 'a' ≤ c ∧ c ≤ 'f' then some (c.toNat - 'a'.toNat + 10)
  else if 'A' ≤ c ∧ c ≤ 'F' then some (c.toNat - 'A'.toNat + 10)
  else none

/-- Node `Buffer.from(s, 'hex')`: decode character pairs left to right and stop
at the first pair containing a non-hexadecimal character; a trailing lone
character is dropped. Never raises. -/
def bufferFromHexAux : List Char → List Nat
  | c1 :: c2 :: rest =>
    match hexVal c1, hexVal c2 with
    | some hi, some lo => (16 * hi + lo) :: bufferFromHexAux rest
    | _, _ => []
  | _ => []

def bufferFromHex (s : String) : List Nat := bufferFromHexAux s.toList

/-- The Identity Deriver (`getAssetId`, source lines 16–21):
`'0x' + sha256(Buffer.from(contractId.slice(2) + subId.slice(2), 'hex')).digest('hex')`. -/
def getAssetId (contractId subId : String) : String :=
  "0x" ++ bytesToHex (sha256 (bufferFromHex (contractId.drop 2 ++ subId.drop 2)))

/-! ## Data model (`src/model/generated/asset.model.ts`)

`Asset`: primary key `id`; `contractId`, `subId`, `name`, `symbol` nullable
strings; `decimals` nullable integer. Nullable columns are `Option`s. -/

structure Asset where
  id : String
  contractId : Option String := none
  subId : Option String := none
  name : Option String := none
  symbol : Option String := none
  decimals : Option Nat := none
deriving Repr, DecidableEq

/-! ## Receipts and log payloads -/

/-- The receipt kinds the handler distinguishes; anything else is untouched. -/
inductive ReceiptType
  | MINT
  | LOG_DATA
  | OTHER
deriving Repr, DecidableEq

/-- Modelled from the spec: the SRC-20 ABI (`./abis/src20-abi.json`) and the
`fuels` `Interface.decodeLog` are not under `src/`; per the spec, each of the
three known layouts decodes a payload into an asset identifier (`asset.bits`,
already in canonical id form) plus one of `{name, symbol, decimals}`. A
payload is therefore modelled as its decoded content, with `raw` standing for
bytes that match no known layout. -/
inductive Payload
  | nameLog (assetBits : String) (name : String)
  | symbolLog (assetBits : String) (symbol : String)
  | decimalsLog (assetBits : String) (decimals : Nat)
  | raw
deriving Repr, DecidableEq

/-- One receipt, with the fields requested by `setFields` (contract,
receiptType, data, rb, subId); all but the type are nullable. -/
structure Receipt where
  receiptType : ReceiptType
  contract : Option String := none
  subId : Option String := none
  rb : Option Nat := none
  data : Option Payload := none
deriving Repr, DecidableEq

/-- A block is an ordered list of receipts. -/
structure Block where
  receipts : List Receipt
deriving Repr, DecidableEq

def setNameEventId : Nat := 7845998088195677205

def setSymbolEventId : Nat := 12152039456660331088

def setDecimalsEventId : Nat := 18149631459970394923

/-- Errors that abort the batch: a decode failure on a recognized
discriminator, or a runtime `TypeError` from dereferencing an absent
(`undefined`) receipt field. -/
inductive Err
  | decodeError
  | typeError
deriving Repr, DecidableEq

/-- Modelled from the spec: `src20Interface.decodeLog(data, eventId)` for a
recognized discriminator either yields the structured event or fails; an
absent or non-matching payload is a decode failure (fatal to the batch). -/
def decodeNameLog : Option Payload → Except Err (String × String)
  | some (.nameLog bits name) => .ok (bits, name)
  | _ => .error .decodeError

/-- Modelled from the spec: see `decodeNameLog`. -/
def decodeSymbolLog : Option Payload → Except Err (String × String)
  | some (.symbolLog bits symbol) => .ok (bits, symbol)
  | _ => .error .decodeError

/-- Modelled from the spec: see `decodeNameLog`. -/
def decodeDecimalsLog : Option Payload → Except Err (String × Nat)
  | some (.decimalsLog bits decimals) => .ok (bits, decimals)
  | _ => .error .decodeError

instance {ε α : Type} [DecidableEq ε] [DecidableEq α] : DecidableEq (Except ε α) := fun x y =>
  match x, y with
  | .ok a, .ok b => if h : a = b then .isTrue (by rw [h]) else .isFalse (by simp [h])
  | .error a, .error b => if h : a = b then .isTrue (by rw [h]) else .isFalse (by simp [h])
  | .ok _, .error _ => .isFalse (by simp)
  | .error _, .ok _ => .isFalse (by simp)

/-! ## The batch handler (`run(dataSource, database, async ctx => ...)`) -/

/-- The external keyed store, as seen through `ctx.store.findOne`. -/
abbrev Store : Type := String → Option Asset

/-- The in-memory `assetsById` mapping: a JS object with string keys keeps
(non-index) keys in first-insertion order, and `Object.values` reads them in
that order, so it is embedded as an association list where updating an
existing key rewrites it in place. -/
abbrev AssetMap : Type := List (String × Asset)

/-- Read a property of the `assetsById` object. -/
def mapLookup : AssetMap → String → Option Asset
  | [], _ => none
  | p :: rest, assetId => if p.1 = assetId then some p.2 else mapLookup rest assetId

/-- Assign a property of the `assetsById` object: rewrite the key in place
when present (JS objects keep the original insertion position on
re-assignment), append it otherwise. -/
def mapSet : AssetMap → String → Asset → AssetMap
  | [], assetId, a => [(assetId, a)]
  | p :: rest, assetId, a =>
    if p.1 = assetId then (assetId, a) :: rest else p :: mapSet rest assetId a

/-- Source `getAsset` (lines 102–112): consult `assetsById`, else
`ctx.store.findOne`, else `new Asset({id})`; always write the result back
into `assetsById` and return it. -/
def getAsset (store : Store) (m : AssetMap) (assetId : String) : Asset × AssetMap :=
  let found : Option Asset :=
    match mapLookup m assetId with
    | some a => some a
    | none => store assetId
  let asset : Asset :=
    match found with
    | some a => a
    | none => { id := assetId }
  (asset, mapSet m assetId asset)

/-- The body of the receipt loop (source lines 115–143): the MINT branch
derives the id and overwrites `contractId`/`subId`; the LOG_DATA switch
decodes the three known discriminators and sets the matching field; unknown
discriminators and other receipt kinds fall through. Dereferencing an absent
MINT `contract`/`subId` is the runtime `TypeError` of `undefined.slice`. -/
def processReceipt (store : Store) (m : AssetMap) (r : Receipt) : Except Err AssetMap :=
  match r.receiptType with
  | .MINT =>
    match r.contract, r.subId with
    | some contract, some subId =>
      let assetId := getAssetId contract subId
      let (mintedAsset, m) := getAsset store m assetId
      .ok (mapSet m assetId { mintedAsset with contractId := some contract, subId := some subId })
    | _, _ => .error .typeError
  | .LOG_DATA =>
    match r.rb with
    | some rb =>
      if rb = setNameEventId then
        match decodeNameLog r.data with
        | .ok (bits, name) =>
          let (nameAsset, m) := getAsset store m bits
          .ok (mapSet m bits { nameAsset with name := some name })
        | .error e => .error e
      else if rb = setSymbolEventId then
        match decodeSymbolLog r.data with
        | .ok (bits, symbol) =>
          let (symbolAsset, m) := getAsset store m bits
          .ok (mapSet m bits { symbolAsset with symbol := some symbol })
        | .error e => .error e
      else if rb = setDecimalsEventId then
        match decodeDecimalsLog r.data with
        | .ok (bits, decimals) =>
          let (decimalsAsset, m) := getAsset store m bits
          .ok (mapSet m bits { decimalsAsset with decimals := some decimals })
        | .error e => .error e
      else
        .ok m
    | none => .ok m
  | .OTHER => .ok m

/-- The nested `for` loops over blocks and receipts. -/
def processReceipts (store : Store) : AssetMap → List Receipt → Except Err AssetMap
  | m, [] => .ok m
  | m, r :: rest =>
    match processReceipt store m r with
    | .ok m => processReceipts store m rest
    | .error e => .error e

def processBlocks (store : Store) : AssetMap → List Block → Except Err AssetMap
  | m, [] => .ok m
  | m, b :: rest =>
    match processReceipts store m b.receipts with
    | .ok m => processBlocks store m rest
    | .error e => .error e

/-- The whole handler body for one batch: run the loops from an empty
`assetsById` and return `Object.values(assetsById)` — the record list handed
to `ctx.store.upsert`. A thrown error propagates before the upsert line. -/
def processBatch (store : Store) (blocks : List Block) : Except Err (List Asset) :=
  match processBlocks store [] blocks with
  | .ok m => .ok (m.map Prod.snd)
  | .error e => .error e

/-- Bulk `upsert` on the external store: insert-or-update each record, keyed by id. -/
def upsertAll (store : Store) (records : List Asset) : Store :=
  records.foldl (fun st a => fun assetId => if assetId = a.id then some a else st assetId) store

/-- The externally visible effect of one batch: the store is rewritten by the
end-of-batch bulk upsert when the handler completes, and is left untouched
when the handler throws before reaching the upsert line. -/
def commitBatch (store : Store) (blocks : List Block) : Store :=
  match processBatch store blocks with
  | .ok records => upsertAll store records
  | .error _ => store

/-! ## Derived notions and concrete inputs used in the statements -/

/-- The merge base the spec describes for a first reference to an id: the
stored record when the point lookup finds one, otherwise a fresh record with
only `id` populated. -/
def mergeBase (store : Store) (assetId : String) : Asset :=
  match store assetId with
  | some a => a
  | none => { id := assetId }

/-- A store holding no record at all. -/
def emptyStore : Store := fun _ => none

/-- A MINT receipt carrying a contract id and a sub id. -/
def mintReceipt (contract subId : String) : Receipt :=
  { receiptType := .MINT, contract := some contract, subId := some subId }

/-- A LOG_DATA receipt with the setName discriminator and a decodable payload. -/
def nameReceipt (bits nv : String) : Receipt :=
  { receiptType := .LOG_DATA, rb := some setNameEventId, data := some (.nameLog bits nv) }

/-- A LOG_DATA receipt with the setSymbol discriminator and a decodable payload. -/
def symbolReceipt (bits sv : String) : Receipt :=
  { receiptType := .LOG_DATA, rb := some setSymbolEventId, data := some (.symbolLog bits sv) }

/-- A LOG_DATA receipt with the setDecimals discriminator and a decodable payload. -/
def decimalsReceipt (bits : String) (dv : Nat) : Receipt :=
  { receiptType := .LOG_DATA, rb := some setDecimalsEventId, data := some (.decimalsLog bits dv) }

/-- Contract id for the end-to-end scenario: the byte `0xAA` repeated 32 times. -/
def contractA : String :=
  "0xaaaaaaaaaaaaaaaaaaaaaaaaaaaaaaaaaaaaaaaaaaaaaaaaaaaaaaaaaaaaaaaa"

/-- Sub id for the end-to-end scenario: the byte `0xBB` repeated 32 times. -/
def subB : String :=
  "0xbbbbbbbbbbbbbbbbbbbbbbbbbbbbbbbbbbbbbbbbbbbbbbbbbbbbbbbbbbbbbbbb"

/-- Modelled from the spec: "well-formed hexadecimal" of even length after
the `0x` is removed — the precondition under which the spec says identity
derivation succeeds. -/
def isWellFormedHex (s : String) : Bool :=
  ((s.drop 2).toList.length % 2 = 0) && (s.drop 2).toList.all fun c => (hexVal c).isSome

/-- Whether a string has the shape of a derived asset identifier: `0x`
followed by exactly 64 lowercase hexadecimal digits. -/
def isAssetIdFormat (s : String) : Bool :=
  match s.toList with
  | '0' :: 'x' :: rest => (rest.length = 64) && rest.all fun c => c ∈ hexDigitsLower
  | _ => false

/-! ## Lemmas about the in-memory map and `getAsset` -/

theorem mapLookup_mapSet_self (m : AssetMap) (assetId : String) (a : Asset) :
    mapLookup (mapSet m assetId a) assetId = some a := by
  induction m with
  | nil => simp [mapLookup, mapSet]
  | cons p rest ih =>
    by_cases h : p.1 = assetId
    · simp [mapSet, h, mapLookup]
    · simp [mapSet, h, mapLookup, ih]

theorem mapLookup_mapSet_ne (m : AssetMap) (assetId k : String) (a : Asset)
    (h : k ≠ assetId) : mapLookup (mapSet m assetId a) k = mapLookup m k := by
  induction m with
  | nil => simp [mapLookup, mapSet, Ne.symm h]
  | cons p rest ih =>
    by_cases hp : p.1 = assetId
    · simp [mapSet, hp, mapLookup, Ne.symm h]
    · simp [mapSet, hp, mapLookup, ih]

theorem mapSet_mapSet (m : AssetMap) (assetId : String) (a b : Asset) :
    mapSet (mapSet m assetId a) assetId b = mapSet m assetId b := by
  induction m with
  | nil => simp [mapSet]
  | cons p rest ih =>
    by_cases h : p.1 = assetId
    · simp [mapSet, h]
    · simp [mapSet, h, ih]

theorem mapSet_self_of_lookup (m : AssetMap) (assetId : String) (a : Asset)
    (h : mapLookup m assetId = some a) : mapSet m assetId a = m := by
  induction m with
  | nil => simp [mapLookup] at h
  | cons p rest ih =>
    obtain ⟨k0, a0⟩ := p
    by_cases hp : k0 = assetId
    · subst hp
      simp [mapLookup] at h
      simp [mapSet, h]
    · simp [mapLookup, hp] at h
      simp [mapSet, hp, ih h]

theorem getAsset_of_lookup (store : Store) (m : AssetMap) (assetId : String) (a : Asset)
    (h : mapLookup m assetId = some a) : getAsset store m assetId = (a, m) := by
  simp [getAsset, h, mapSet_self_of_lookup m assetId a h]

theorem getAsset_of_first (store : Store) (m : AssetMap) (assetId : String)
    (h : mapLookup m assetId = none) :
    getAsset store m assetId =
      (mergeBase store assetId, mapSet m assetId (mergeBase store assetId)) := by
  simp [getAsset, h, mergeBase]

theorem getAsset_snd (store : Store) (m : AssetMap) (assetId : String) :
    getAsset store m assetId = ((getAsset store m assetId).1, mapSet m assetId (getAsset store m assetId).1) := by
  simp [getAsset]

/-! ## Step equations for the four recognized events -/

theorem processReceipt_mint (store : Store) (m : AssetMap) (contract subId : String) :
    processReceipt store m (mintReceipt contract subId) =
      .ok (mapSet m (getAssetId contract subId)
        { (getAsset store m (getAssetId contract subId)).1 with
          contractId := some contract, subId := some subId }) := by
  rw [processReceipt]
  simp only [mintReceipt]
  rw [getAsset_snd]
  simp [mapSet_mapSet]

theorem processReceipt_name (store : Store) (m : AssetMap) (bits nv : String) :
    processReceipt store m (nameReceipt bits nv) =
      .ok (mapSet m bits { (getAsset store m bits).1 with name := some nv }) := by
  rw [processReceipt]
  simp only [nameReceipt, decodeNameLog]
  rw [getAsset_snd]
  simp [mapSet_mapSet]

theorem processReceipt_symbol (store : Store) (m : AssetMap) (bits sv : String) :
    processReceipt store m (symbolReceipt bits sv) =
      .ok (mapSet m bits { (getAsset store m bits).1 with symbol := some sv }) := by
  rw [processReceipt]
  simp only [symbolReceipt, decodeSymbolLog]
  rw [getAsset_snd]
  simp [mapSet_mapSet, setSymbolEventId, setNameEventId]

theorem processReceipt_decimals (store : Store) (m : AssetMap) (bits : String) (dv : Nat) :
    processReceipt store m (decimalsReceipt bits dv) =
      .ok (mapSet m bits { (getAsset store m bits).1 with decimals := some dv }) := by
  rw [processReceipt]
  simp only [decimalsReceipt, decodeDecimalsLog]
  rw [getAsset_snd]
  simp [mapSet_mapSet, setDecimalsEventId, setNameEventId, setSymbolEventId]

/-! ## Shape of the derived identifier -/

theorem wordBytes_lt (w : Nat) : ∀ b ∈ wordBytes w, b < 256 := by
  intro b hb
  simp [wordBytes] at hb
  rcases hb with h | h | h | h <;> subst h <;> omega

theorem sha256_length (msg : List Nat) : (sha256 msg).length = 32 := by
  simp [sha256, wordBytes]

theorem sha256_lt (msg : List Nat) : ∀ b ∈ sha256 msg, b < 256 := by
  intro b hb
  simp only [sha256, List.mem_append] at hb
  rcases hb with ((((((h | h) | h) | h) | h) | h) | h) | h <;> exact wordBytes_lt _ b h

theorem nibbleChar_mem (n : Nat) : nibbleChar n ∈ hexDigitsLower := by
  by_cases h : n < 16
  · interval_cases n <;> decide
  · rw [nibbleChar, List.getD_eq_default]
    · decide
    · simp only [hexDigitsLower, List.length_map, List.length_range]
      omega

theorem hexList_length (bs : List Nat) :
    (bs.flatMap fun b => [nibbleChar (b / 16), nibbleChar (b % 16)]).length = 2 * bs.length := by
  induction bs with
  | nil => simp
  | cons b rest ih =>
    simp only [List.flatMap_cons, List.length_append, List.length_cons, List.length_nil, ih]
    omega

theorem hexList_mem (bs : List Nat) :
    ∀ c ∈ bs.flatMap fun b => [nibbleChar (b / 16), nibbleChar (b % 16)], c ∈ hexDigitsLower := by
  intro c hc
  simp only [List.mem_flatMap, List.mem_cons, List.not_mem_nil, or_false] at hc
  obtain ⟨b, _, hc⟩ := hc
  rcases hc with h | h <;> subst h <;> exact nibbleChar_mem _

/-! ## The claims -/

/-- C1: for a batch of one block whose receipts are, in order, a MINT with
contract `0xAA…` (32 bytes) and subId `0xBB…` (32 bytes) followed by a
LOG_DATA with `rb = setNameEventId` whose payload decodes to the derived id
and the name "Token", and an initially empty store, the handler upserts
exactly one Asset record: id the `0x`-prefixed lowercase-hex SHA-256 of the
concatenated bytes, contractId and subId from the mint, name "Token", and
null symbol and decimals. -/
theorem mint_then_setName_single_upsert :
    processBatch emptyStore
      [⟨[mintReceipt contractA subB, nameReceipt (getAssetId contractA subB) "Token"]⟩] =
      .ok [{ id := "0x" ++ bytesToHex (sha256 (List.replicate 32 0xAA ++ List.replicate 32 0xBB)),
             contractId := some contractA, subId := some subB,
             name := some "Token", symbol := none, decimals := none }] := by
  decide

/-- C2: for every asset id persisted with only `id`, `contractId` and `subId`
set, a batch holding exactly one recognized setSymbol event for that id
upserts a record keeping the stored `contractId`/`subId`, adding the decoded
symbol, and leaving name and decimals null. -/
theorem setSymbol_preserves_stored_fields (store : Store) (assetId c s sv : String)
    (hstore : store assetId = some { id := assetId, contractId := some c, subId := some s }) :
    processBatch store [⟨[symbolReceipt assetId sv]⟩] =
      .ok [{ id := assetId, contractId := some c, subId := some s, name := none,
             symbol := some sv, decimals := none }] := by
  simp [processBatch, processBlocks, processReceipts, processReceipt_symbol,
        getAsset_of_first, mergeBase, mapLookup, mapSet, hstore]

theorem setSymbol_preserves_stored_fields_witness :
    processBatch
      (fun x => if x = "0x01" then
        some { id := "0x01", contractId := some "0xc0", subId := some "0x5b" } else none)
      [⟨[symbolReceipt "0x01" "TKN"]⟩] =
      .ok [{ id := "0x01", contractId := some "0xc0", subId := some "0x5b", name := none,
             symbol := some "TKN", decimals := none }] :=
  setSymbol_preserves_stored_fields _ "0x01" "0xc0" "0x5b" "TKN" (by decide)

/-- C3: (a) for one derived id, processing name-then-symbol-then-mint equals
processing mint-then-name-then-symbol — both yield the same fully populated
record over the merge base; (b) two setName events for one id, with an
other-field event between them and split across blocks, end with the later
event's name. -/
theorem order_across_fields_last_name_wins (store : Store)
    (contract subId assetId n1 n2 nv sv : String) :
    (processBatch store [⟨[nameReceipt (getAssetId contract subId) nv,
                           symbolReceipt (getAssetId contract subId) sv,
                           mintReceipt contract subId]⟩] =
       .ok [{ mergeBase store (getAssetId contract subId) with
              contractId := some contract, subId := some subId,
              name := some nv, symbol := some sv }] ∧
     processBatch store [⟨[mintReceipt contract subId,
                           nameReceipt (getAssetId contract subId) nv,
                           symbolReceipt (getAssetId contract subId) sv]⟩] =
       .ok [{ mergeBase store (getAssetId contract subId) with
              contractId := some contract, subId := some subId,
              name := some nv, symbol := some sv }]) ∧
    processBatch store [⟨[nameReceipt assetId n1, symbolReceipt assetId sv]⟩,
                        ⟨[nameReceipt assetId n2]⟩] =
      .ok [{ mergeBase store assetId with name := some n2, symbol := some sv }] := by
  refine ⟨⟨?_, ?_⟩, ?_⟩ <;>
    simp [processBatch, processBlocks, processReceipts, processReceipt_name,
          processReceipt_symbol, processReceipt_mint, getAsset_of_first,
          getAsset_of_lookup, mapLookup, mapSet, mapLookup_mapSet_self]

/-- C4: processing the same mint event twice in a batch, from any prior
in-memory map and store, leaves exactly the map produced by processing it
once — in particular the final `contractId` and `subId` coincide. -/
theorem mint_twice_idempotent (store : Store) (m : AssetMap) (contract subId : String) :
    processReceipts store m [mintReceipt contract subId, mintReceipt contract subId] =
      processReceipts store m [mintReceipt contract subId] := by
  simp [processReceipts, processReceipt_mint, getAsset_of_lookup,
        mapLookup_mapSet_self, mapSet_mapSet]

/-- C5: a LOG_DATA receipt whose `rb` discriminator is none of the three
known codes leaves the in-memory map untouched and raises no error. -/
theorem unknown_discriminator_noop (store : Store) (m : AssetMap) (r : Receipt) (rb : Nat)
    (htype : r.receiptType = .LOG_DATA) (hrb : r.rb = some rb)
    (h1 : rb ≠ setNameEventId) (h2 : rb ≠ setSymbolEventId) (h3 : rb ≠ setDecimalsEventId) :
    processReceipt store m r = .ok m := by
  simp [processReceipt, htype, hrb, h1, h2, h3]

theorem unknown_discriminator_noop_witness :
    processReceipt emptyStore []
      { receiptType := .LOG_DATA, rb := some 5, data := some .raw } = .ok [] :=
  unknown_discriminator_noop emptyStore [] _ 5 rfl rfl
    (by decide) (by decide) (by decide)

/-- C6 counterexample: `"0xzz"` is not well-formed hexadecimal, yet the
Identity Deriver does not fail on it: Node's `Buffer.from(·, 'hex')`
truncates at the first invalid pair (here to the empty byte string) and
`getAssetId` returns the ordinary identifier `sha256("")`, indistinguishable
from a successful derivation. -/
theorem getAssetId_malformed_hex_returns_identifier :
    isWellFormedHex "0xzz" = false ∧
    getAssetId "0xzz" "0x" =
      "0xe3b0c44298fc1c149afbf4c8996fb92427ae41e4649b934ca495991b7852b855" ∧
    isAssetIdFormat (getAssetId "0xzz" "0x") = true := by
  decide

/-- C6 amended: `getAssetId` never fails. For every pair of input strings —
malformed hexadecimal and odd lengths included — it returns a well-formed
identifier: `0x` followed by exactly 64 lowercase hexadecimal digits, the
digest of the bytes Node's truncating hex decoding yields. -/
theorem getAssetId_total_wellformed (contractId subId : String) :
    isAssetIdFormat (getAssetId contractId subId) = true := by
  have h1 : (getAssetId contractId subId).toList =
      '0' :: 'x' :: (sha256 (bufferFromHex (contractId.drop 2 ++ subId.drop 2))).flatMap
        (fun b => [nibbleChar (b / 16), nibbleChar (b % 16)]) := by
    simp [getAssetId, bytesToHex, String.data_append]
  rw [isAssetIdFormat, h1]
  simp only [Bool.and_eq_true, decide_eq_true_eq, List.all_eq_true]
  exact ⟨by rw [hexList_length, sha256_length], fun c hc => hexList_mem _ c hc⟩

/-- C7: when processing a batch aborts with an error before the end-of-batch
flush, the external store receives no upsert: every persisted record is
exactly as it was before the batch. -/
theorem abort_leaves_store_unchanged (store : Store) (blocks : List Block) (e : Err)
    (h : processBatch store blocks = .error e) (assetId : String) :
    commitBatch store blocks assetId = store assetId := by
  simp [commitBatch, h]

theorem abort_leaves_store_unchanged_witness :
    processBatch emptyStore
      [⟨[{ receiptType := .LOG_DATA, rb := some setNameEventId, data := some .raw }]⟩] =
      .error .decodeError ∧
    commitBatch emptyStore
      [⟨[{ receiptType := .LOG_DATA, rb := some setNameEventId, data := some .raw }]⟩]
      "0x01" = emptyStore "0x01" :=
  ⟨by decide,
   abort_leaves_store_unchanged emptyStore
     [⟨[{ receiptType := .LOG_DATA, rb := some setNameEventId, data := some .raw }]⟩]
     .decodeError (by decide) "0x01"⟩

/-- C8: on the first reference to an id in a batch, `getAsset` does a point
lookup: the stored record, when one exists, becomes the merge base, otherwise
a fresh record with only `id` set; and any later reference to that id returns
the same in-memory record with the map unchanged, whatever the store then
holds — no second lookup can influence the result. -/
theorem getAsset_fetch_or_create (store : Store) (m : AssetMap) (assetId : String)
    (hfirst : mapLookup m assetId = none) :
    getAsset store m assetId =
      (mergeBase store assetId, mapSet m assetId (mergeBase store assetId)) ∧
    (∀ r, store assetId = some r → mergeBase store assetId = r) ∧
    (store assetId = none →
      mergeBase store assetId =
        { id := assetId, contractId := none, subId := none,
          name := none, symbol := none, decimals := none }) ∧
    (∀ (store2 : Store) (m2 : AssetMap) (a : Asset), mapLookup m2 assetId = some a →
      getAsset store2 m2 assetId = (a, m2)) := by
  refine ⟨getAsset_of_first store m assetId hfirst, ?_, ?_, ?_⟩
  · intro r hr
    simp [mergeBase, hr]
  · intro h0
    simp [mergeBase, h0]
  · intro store2 m2 a ha
    exact getAsset_of_lookup store2 m2 assetId a ha

theorem getAsset_fetch_or_create_witness :
    (getAsset emptyStore [] "0x01" =
      (mergeBase emptyStore "0x01", mapSet [] "0x01" (mergeBase emptyStore "0x01")) ∧
    (∀ r, emptyStore "0x01" = some r → mergeBase emptyStore "0x01" = r) ∧
    (emptyStore "0x01" = none →
      mergeBase emptyStore "0x01" =
        { id := "0x01", contractId := none, subId := none,
          name := none, symbol := none, decimals := none }) ∧
    (∀ (store2 : Store) (m2 : AssetMap) (a : Asset), mapLookup m2 "0x01" = some a →
      getAsset store2 m2 "0x01" = (a, m2))) :=
  getAsset_fetch_or_create emptyStore [] "0x01" (by decide)

/-- C9: the Identity Deriver is deterministic — any two invocations on the
same pair of input strings return the same identifier. -/
theorem getAssetId_deterministic (contractId subId x y : String)
    (hx : x = getAssetId contractId subId) (hy : y = getAssetId contractId subId) :
    x = y := by
  rw [hx, hy]

theorem getAssetId_deterministic_witness :
    ("0xe2d80f78d79027556d6619a1400605abbdca6bb6eb24e0831e33ecd5466fa5f6" : String) =
      "0xe2d80f78d79027556d6619a1400605abbdca6bb6eb24e0831e33ecd5466fa5f6" :=
  getAssetId_deterministic contractA subB _ _ (by decide) (by decide)

/-- C10: each handler writes only its designated fields. A MINT step rewrites
the target entry to the merge-base record with only `contractId`/`subId`
replaced; setName, setSymbol and setDecimals steps replace only `name`,
`symbol` and `decimals`; every other key of the map is untouched; and no
update changes the `id` field of the record it rewrites. -/
theorem handlers_write_only_designated_fields (store : Store) (m : AssetMap)
    (contract subId bits nv sv : String) (dv : Nat) (k : String)
    (m1 m2 m3 m4 : AssetMap)
    (h1 : processReceipt store m (mintReceipt contract subId) = .ok m1)
    (h2 : processReceipt store m (nameReceipt bits nv) = .ok m2)
    (h3 : processReceipt store m (symbolReceipt bits sv) = .ok m3)
    (h4 : processReceipt store m (decimalsReceipt bits dv) = .ok m4)
    (hk1 : k ≠ getAssetId contract subId) (hk2 : k ≠ bits) :
    (mapLookup m1 (getAssetId contract subId) =
        some { (getAsset store m (getAssetId contract subId)).1 with
               contractId := some contract, subId := some subId } ∧
      mapLookup m1 k = mapLookup m k) ∧
    (mapLookup m2 bits = some { (getAsset store m bits).1 with name := some nv } ∧
      mapLookup m2 k = mapLookup m k) ∧
    (mapLookup m3 bits = some { (getAsset store m bits).1 with symbol := some sv } ∧
      mapLookup m3 k = mapLookup m k) ∧
    (mapLookup m4 bits = some { (getAsset store m bits).1 with decimals := some dv } ∧
      mapLookup m4 k = mapLookup m k) ∧
    ({ (getAsset store m (getAssetId contract subId)).1 with
       contractId := some contract, subId := some subId } : Asset).id =
      ((getAsset store m (getAssetId contract subId)).1).id ∧
    ({ (getAsset store m bits).1 with name := some nv } : Asset).id =
      ((getAsset store m bits).1).id ∧
    ({ (getAsset store m bits).1 with symbol := some sv } : Asset).id =
      ((getAsset store m bits).1).id ∧
    ({ (getAsset store m bits).1 with decimals := some dv } : Asset).id =
      ((getAsset store m bits).1).id := by
  rw [processReceipt_mint] at h1
  rw [processReceipt_name] at h2
  rw [processReceipt_symbol] at h3
  rw [processReceipt_decimals] at h4
  injection h1 with h1
  injection h2 with h2
  injection h3 with h3
  injection h4 with h4
  subst h1 h2 h3 h4
  refine ⟨⟨?_, ?_⟩, ⟨?_, ?_⟩, ⟨?_, ?_⟩, ⟨?_, ?_⟩, rfl, rfl, rfl, rfl⟩ <;>
    simp [mapLookup_mapSet_self, mapLookup_mapSet_ne _ _ _ _ hk1,
          mapLookup_mapSet_ne _ _ _ _ hk2]

theorem handlers_write_only_designated_fields_witness :
    (mapLookup (mapSet [] (getAssetId "0xaa" "0xbb")
        { (getAsset emptyStore [] (getAssetId "0xaa" "0xbb")).1 with
          contractId := some "0xaa", subId := some "0xbb" })
        (getAssetId "0xaa" "0xbb") =
        some { (getAsset emptyStore [] (getAssetId "0xaa" "0xbb")).1 with
               contractId := some "0xaa", subId := some "0xbb" } ∧
      mapLookup (mapSet [] (getAssetId "0xaa" "0xbb")
        { (getAsset emptyStore [] (getAssetId "0xaa" "0xbb")).1 with
          contractId := some "0xaa", subId := some "0xbb" }) "0xcc" = mapLookup [] "0xcc") ∧
    (mapLookup (mapSet [] "0xb1"
        { (getAsset emptyStore [] "0xb1").1 with name := some "N" }) "0xb1" =
        some { (getAsset emptyStore [] "0xb1").1 with name := some "N" } ∧
      mapLookup (mapSet [] "0xb1"
        { (getAsset emptyStore [] "0xb1").1 with name := some "N" }) "0xcc" =
        mapLookup [] "0xcc") ∧
    (mapLookup (mapSet [] "0xb1"
        { (getAsset emptyStore [] "0xb1").1 with symbol := some "S" }) "0xb1" =
        some { (getAsset emptyStore [] "0xb1").1 with symbol := some "S" } ∧
      mapLookup (mapSet [] "0xb1"
        { (getAsset emptyStore [] "0xb1").1 with symbol := some "S" }) "0xcc" =
        mapLookup [] "0xcc") ∧
    (mapLookup (mapSet [] "0xb1"
        { (getAsset emptyStore [] "0xb1").1 with decimals := some 9 }) "0xb1" =
        some { (getAsset emptyStore [] "0xb1").1 with decimals := some 9 } ∧
      mapLookup (mapSet [] "0xb1"
        { (getAsset emptyStore [] "0xb1").1 with decimals := some 9 }) "0xcc" =
        mapLookup [] "0xcc") ∧
    ({ (getAsset emptyStore [] (getAssetId "0xaa" "0xbb")).1 with
       contractId := some "0xaa", subId := some "0xbb" } : Asset).id =
      ((getAsset emptyStore [] (getAssetId "0xaa" "0xbb")).1).id ∧
    ({ (getAsset emptyStore [] "0xb1").1 with name := some "N" } : Asset).id =
      ((getAsset emptyStore [] "0xb1").1).id ∧
    ({ (getAsset emptyStore [] "0xb1").1 with symbol := some "S" } : Asset).id =
      ((getAsset emptyStore [] "0xb1").1).id ∧
    ({ (getAsset emptyStore [] "0xb1").1 with decimals := some 9 } : Asset).id =
      ((getAsset emptyStore [] "0xb1").1).id :=
  handlers_write_only_designated_fields emptyStore [] "0xaa" "0xbb" "0xb1" "N" "S" 9 "0xcc"
    _ _ _ _
    (processReceipt_mint emptyStore [] "0xaa" "0xbb")
    (processReceipt_name emptyStore [] "0xb1" "N")
    (processReceipt_symbol emptyStore [] "0xb1" "S")
    (processReceipt_decimals emptyStore [] "0xb1" 9)
    (by decide) (by decide)

end TokenIndexer
